import Mathlib

/-!
Verification of the Task Store (packages/backend/convex/tasks.ts together
with the tasks table of the Convex schema) against its natural-language
specification.  The Convex handlers are shallowly embedded: the database is
an association list from numeric identifiers to task records, timestamps
(`Date.now()`) are explicit `now : Nat` parameters, and a handler that can
throw returns `Except String`.
-/

set_option maxHeartbeats 1000000

namespace TaskStore

/-- Task status, the closed union of the four string literals of the schema. -/
inductive Status
  | todo
  | in_progress
  | completed
  | archived
deriving DecidableEq, Repr

/-- Task priority, the closed union of the three string literals of the schema. -/
inductive Priority
  | low
  | medium
  | high
deriving DecidableEq, Repr

/-- A row of the tasks table, following the Convex schema in
packages/backend/convex/schema.ts.  Optional schema fields are `Option`;
`dueDate` and `completedAt` are millisecond timestamps modelled as `Nat`;
`userId` (an id into the not-yet-implemented users table) is an opaque `Nat`. -/
structure Task where
  title : String
  description : Option String
  status : Status
  priority : Priority
  dueDate : Option Nat
  userId : Option Nat
  tags : Option (List String)
  completedAt : Option Nat
deriving DecidableEq, Repr

/-- The task table: rows keyed by identifier, plus the next fresh identifier.
Row order is insertion order (oldest first). -/
structure DB where
  rows : List (Nat × Task)
  nextId : Nat
deriving DecidableEq, Repr

/-- The empty store. -/
def dbEmpty : DB := { rows := [], nextId := 0 }

instance {ε α : Type} [DecidableEq ε] [DecidableEq α] : DecidableEq (Except ε α) :=
  fun a b =>
    match a, b with
    | Except.ok x, Except.ok y =>
      if h : x = y then isTrue (by rw [h]) else isFalse (by intro hh; cases hh; exact h rfl)
    | Except.error x, Except.error y =>
      if h : x = y then isTrue (by rw [h]) else isFalse (by intro hh; cases hh; exact h rfl)
    | Except.ok _, Except.error _ => isFalse (by intro h; cases h)
    | Except.error _, Except.ok _ => isFalse (by intro h; cases h)

/-- JavaScript String.prototype.trim, modelled over the character list:
whitespace is removed from both ends of the string.  (Stated structurally so
that concrete titles evaluate inside the kernel.) -/
def jsTrim (s : String) : String :=
  String.mk (((s.data.dropWhile Char.isWhitespace).reverse.dropWhile Char.isWhitespace).reverse)

/-- Well-formedness provided by the storage layer: every stored identifier
was allocated before the next fresh one (so fresh identifiers are unique). -/
def DBwf (db : DB) : Prop := ∀ r ∈ db.rows, r.1 < db.nextId

/-- ctx.db.get: the row with the given id, or none. -/
def dbGet (db : DB) (id : Nat) : Option Task :=
  (db.rows.find? (fun r => r.1 = id)).map (fun r => r.2)

/-- ctx.db.patch restricted to the concrete patch objects the handlers build:
the row with the given id is replaced by `f` applied to it, other rows are
untouched. -/
def dbPatch (db : DB) (id : Nat) (f : Task → Task) : DB :=
  { db with rows := db.rows.map (fun r => if r.1 = id then (r.1, f r.2) else r) }

/-- Modelled from the spec: the storage layer's physical delete, which is not
part of this repository.  Per the spec, removing a record requires no
existence check and removing a nonexistent record is not an error, so delete
is a total function that drops the row with the given id if present. -/
def dbDelete (db : DB) (id : Nat) : DB :=
  { db with rows := db.rows.filter (fun r => r.1 ≠ id) }

/-- Arguments of the createTask mutation; `none` means the optional Convex
argument was omitted. -/
structure CreateArgs where
  title : String
  description : Option String := none
  status : Option Status := none
  priority : Option Priority := none
  dueDate : Option Nat := none
  userId : Option Nat := none
  tags : Option (List String) := none
deriving DecidableEq, Repr

/-- The document createTask inserts: title stored as given (not trimmed),
status defaulted to todo, priority to medium, completedAt undefined. -/
def newTask (a : CreateArgs) : Task :=
  { title := a.title
    description := a.description
    status := a.status.getD Status.todo
    priority := a.priority.getD Priority.medium
    dueDate := a.dueDate
    userId := a.userId
    tags := a.tags
    completedAt := none }

/-- Mutation createTask: rejects a title that is empty after trimming,
otherwise inserts `newTask` under the fresh id and returns the id together
with the record read back from the store. -/
def createTask (db : DB) (a : CreateArgs) : Except String (DB × Nat × Option Task) :=
  if (jsTrim a.title).length = 0 then
    Except.error "Task title cannot be empty"
  else
    Except.ok ({ rows := db.rows ++ [(db.nextId, newTask a)], nextId := db.nextId + 1 },
      db.nextId,
      dbGet { rows := db.rows ++ [(db.nextId, newTask a)], nextId := db.nextId + 1 }
        db.nextId)

/-- Arguments of the updateTask mutation other than the id; `none` means the
field was not supplied.  Note userId is not among them. -/
structure UpdateArgs where
  title : Option String := none
  description : Option String := none
  status : Option Status := none
  priority : Option Priority := none
  dueDate : Option Nat := none
  tags : Option (List String) := none
deriving DecidableEq, Repr

/-- A field of the patch object `{...updates}`: present fields overwrite,
absent fields leave the stored value. -/
def patchField {α : Type} (upd : Option α) (old : α) : α :=
  match upd with
  | some x => x
  | none => old

/-- An optional field of the patch object: present fields overwrite, absent
fields leave the stored (optional) value. -/
def patchFieldOpt {α : Type} (upd : Option α) (old : Option α) : Option α :=
  match upd with
  | some x => some x
  | none => old

/-- The completedAt value written by updateTask's status-transition rule:
set to now on a transition into completed, cleared when status is set to a
non-completed value, otherwise left as stored. -/
def updCompletedAt (u : UpdateArgs) (t : Task) (now : Nat) : Option Nat :=
  if u.status = some Status.completed ∧ t.status ≠ Status.completed then
    some now
  else
    match u.status with
    | some s => if s = Status.completed then t.completedAt else none
    | none => t.completedAt

/-- The record stored by updateTask when the task `t` exists. -/
def applyUpdate (t : Task) (u : UpdateArgs) (now : Nat) : Task :=
  { title := patchField u.title t.title
    description := patchFieldOpt u.description t.description
    status := patchField u.status t.status
    priority := patchField u.priority t.priority
    dueDate := patchFieldOpt u.dueDate t.dueDate
    userId := t.userId
    tags := patchFieldOpt u.tags t.tags
    completedAt := updCompletedAt u t now }

/-- Mutation updateTask: throws if the id is absent, otherwise patches the
provided fields (with the completedAt transition rule) and returns the
record read back. -/
def updateTask (db : DB) (id : Nat) (u : UpdateArgs) (now : Nat) :
    Except String (DB × Option Task) :=
  match dbGet db id with
  | none => Except.error "Task not found"
  | some _ =>
    Except.ok (dbPatch db id (fun t => applyUpdate t u now),
      dbGet (dbPatch db id (fun t => applyUpdate t u now)) id)

/-- Mutation deleteTask (soft delete): throws if the id is absent, otherwise
patches only `status := archived` and returns a success flag. -/
def deleteTask (db : DB) (id : Nat) : Except String (DB × Bool) :=
  match dbGet db id with
  | none => Except.error "Task not found"
  | some _ =>
    Except.ok (dbPatch db id (fun t => { t with status := Status.archived }), true)

/-- Mutation hardDeleteTask: unconditionally deletes the row (see `dbDelete`)
and reports success. -/
def hardDeleteTask (db : DB) (id : Nat) : DB × Bool :=
  (dbDelete db id, true)

/-- The new status toggleTaskComplete writes: completed flips to todo,
anything else flips to completed. -/
def toggleStatus (t : Task) : Status :=
  if t.status = Status.completed then Status.todo else Status.completed

/-- The completedAt value toggleTaskComplete writes: now when the new status
is completed, cleared otherwise. -/
def toggleCompletedAt (t : Task) (now : Nat) : Option Nat :=
  if toggleStatus t = Status.completed then some now else none

/-- Mutation toggleTaskComplete: throws if the id is absent, otherwise flips
completed to todo and anything else to completed, setting completedAt to now
exactly when the new status is completed, and returns the record read back. -/
def toggleTaskComplete (db : DB) (id : Nat) (now : Nat) :
    Except String (DB × Option Task) :=
  match dbGet db id with
  | none => Except.error "Task not found"
  | some t =>
    Except.ok
      (dbPatch db id
        (fun u => { u with status := toggleStatus t, completedAt := toggleCompletedAt t now }),
      dbGet
        (dbPatch db id
          (fun u => { u with status := toggleStatus t, completedAt := toggleCompletedAt t now }))
        id)

/-- JavaScript truthiness test `task.dueDate && task.dueDate >= now` of the
getUpcomingTasks in-code filter: the due date must be present, truthy
(nonzero, since 0 is falsy in JavaScript) and at least now. -/
def dueOk (now : Nat) (t : Task) : Bool :=
  match t.dueDate with
  | some d => decide (d ≠ 0) && decide (now ≤ d)
  | none => false

/-- The sort key `a.dueDate || 0` of getUpcomingTasks' comparator. -/
def dueKey (t : Task) : Nat :=
  match t.dueDate with
  | some d => d
  | none => 0

/-- Insert a task into a list sorted ascending by `dueKey`. -/
def insertByDue (t : Task) : List Task → List Task
  | [] => [t]
  | x :: xs => if dueKey t ≤ dueKey x then t :: x :: xs else x :: insertByDue t xs

/-- The ascending sort by `(a.dueDate || 0) - (b.dueDate || 0)` of
getUpcomingTasks, realised as insertion sort (the comparator is a total
preorder, so any comparison sort yields a list sorted by `dueKey`). -/
def sortByDue : List Task → List Task
  | [] => []
  | x :: xs => insertByDue x (sortByDue xs)

/-- The candidate rows getUpcomingTasks reads from the store: the scan in
by_status_and_due_date index order (`scanned`), with the two `neq` status
filters applied, capped at 50 rows. -/
def upcomingCandidates (scanned : List Task) : List Task :=
  (((scanned.filter (fun t => decide (t.status ≠ Status.archived))).filter
      (fun t => decide (t.status ≠ Status.completed)))).take 50

/-- Query getUpcomingTasks: candidates filtered in code by `dueOk` and
sorted ascending by due date.  `scanned` is the store's task list in
by_status_and_due_date index order and `now` is Date.now() at call time. -/
def getUpcomingTasks (now : Nat) (scanned : List Task) : List Task :=
  sortByDue ((upcomingCandidates scanned).filter (fun t => dueOk now t))

/-- One call to a mutation of the store, with its Date.now() where the
handler reads the clock. -/
inductive Op
  | create (a : CreateArgs)
  | update (id : Nat) (u : UpdateArgs) (now : Nat)
  | archive (id : Nat)
  | toggle (id : Nat) (now : Nat)
  | hardDelete (id : Nat)

/-- The store state after a mutation; a call that throws leaves the store
unchanged (each call either fully applies its effect or fully fails). -/
def applyOp (db : DB) : Op → DB
  | Op.create a =>
    match createTask db a with
    | Except.ok (db2, _, _) => db2
    | Except.error _ => db
  | Op.update id u now =>
    match updateTask db id u now with
    | Except.ok (db2, _) => db2
    | Except.error _ => db
  | Op.archive id =>
    match deleteTask db id with
    | Except.ok (db2, _) => db2
    | Except.error _ => db
  | Op.toggle id now =>
    match toggleTaskComplete db id now with
    | Except.ok (db2, _) => db2
    | Except.error _ => db
  | Op.hardDelete id => (hardDeleteTask db id).1

/-- The spec's completedAt invariant for one record: completedAt is present
iff status is completed. -/
def taskInv (t : Task) : Prop := t.completedAt.isSome ↔ t.status = Status.completed

instance (t : Task) : Decidable (taskInv t) := by
  unfold taskInv; infer_instance

/-- The spec's completedAt invariant over the whole store. -/
def dbInv (db : DB) : Prop := ∀ r ∈ db.rows, taskInv r.2

/-- The side conditions under which a mutation actually preserves `dbInv`:
create must not ask for status completed (it would leave completedAt unset),
and archive must not target a completed task (it would not clear
completedAt). All other mutations preserve the invariant unconditionally. -/
def opSafe (db : DB) : Op → Prop
  | Op.create a => a.status ≠ some Status.completed
  | Op.archive id => ∀ r ∈ db.rows, r.1 = id → r.2.status ≠ Status.completed
  | _ => True

instance (db : DB) : Decidable (dbInv db) := by
  unfold dbInv
  exact List.decidableBAll _ _

/-- A sequence of mutations applied from left to right; the reachable store
states are exactly `runOps dbEmpty ops`. -/
def runOps (db : DB) (ops : List Op) : DB := ops.foldl applyOp db

/-- A concrete stored task used to instantiate universally quantified
theorems. -/
def sampleTask : Task :=
  { title := "a", description := none, status := Status.todo,
    priority := Priority.medium, dueDate := none, userId := none, tags := none,
    completedAt := none }

/-- A store holding `sampleTask` under id 0. -/
def sampleDB : DB := { rows := [(0, sampleTask)], nextId := 1 }

theorem DBwf_dbEmpty : DBwf dbEmpty := by
  intro r hr
  cases hr

theorem DBwf_sampleDB : DBwf sampleDB := by
  intro r hr
  cases hr with
  | head => exact Nat.zero_lt_one
  | tail _ h => cases h

theorem find?_patch_self (l : List (Nat × Task)) (id : Nat) (f : Task → Task) :
    (l.map (fun r => if r.1 = id then (r.1, f r.2) else r)).find? (fun r => r.1 = id)
      = (l.find? (fun r => r.1 = id)).map (fun r => (r.1, f r.2)) := by
  induction l with
  | nil => rfl
  | cons a l ih =>
    by_cases h : a.1 = id
    · simp [List.find?_cons, h]
    · simp [List.find?_cons, h, ih]

theorem find?_patch_ne (l : List (Nat × Task)) (id j : Nat) (f : Task → Task) (h : j ≠ id) :
    (l.map (fun r => if r.1 = id then (r.1, f r.2) else r)).find? (fun r => r.1 = j)
      = l.find? (fun r => r.1 = j) := by
  induction l with
  | nil => rfl
  | cons a l ih =>
    by_cases ha : a.1 = id
    · have haj : ¬ (a.1 = j) := by rw [ha]; exact fun hh => h hh.symm
      rw [List.map_cons, if_pos ha,
        List.find?_cons_of_neg _ (by simpa using haj),
        List.find?_cons_of_neg _ (by simpa using haj)]
      exact ih
    · by_cases haj : a.1 = j
      · rw [List.map_cons, if_neg ha,
          List.find?_cons_of_pos _ (by simpa using haj),
          List.find?_cons_of_pos _ (by simpa using haj)]
      · rw [List.map_cons, if_neg ha,
          List.find?_cons_of_neg _ (by simpa using haj),
          List.find?_cons_of_neg _ (by simpa using haj)]
        exact ih

theorem dbGet_dbPatch_self (db : DB) (id : Nat) (f : Task → Task) :
    dbGet (dbPatch db id f) id = (dbGet db id).map f := by
  unfold dbGet dbPatch
  simp only [find?_patch_self, Option.map_map]
  rfl

theorem dbGet_dbPatch_ne (db : DB) (id j : Nat) (f : Task → Task) (h : j ≠ id) :
    dbGet (dbPatch db id f) j = dbGet db j := by
  unfold dbGet dbPatch
  simp only [find?_patch_ne _ _ _ _ h]

theorem dbGet_dbDelete_self (db : DB) (id : Nat) :
    dbGet (dbDelete db id) id = none := by
  unfold dbGet dbDelete
  simp only [Option.map_eq_none', List.find?_eq_none, List.mem_filter]
  intro r hr
  simpa using hr.2

theorem dbGet_insert_fresh (db : DB) (t : Task) (hwf : DBwf db) :
    dbGet { rows := db.rows ++ [(db.nextId, t)], nextId := db.nextId + 1 } db.nextId = some t := by
  unfold dbGet
  have hnone : db.rows.find? (fun r => r.1 = db.nextId) = none := by
    rw [List.find?_eq_none]
    intro r hr
    simpa using Nat.ne_of_lt (hwf r hr)
  rw [List.find?_append, hnone, Option.none_or, List.find?_cons_of_pos _ (by simp)]
  rfl

theorem createTask_err (db : DB) (a : CreateArgs) (h : (jsTrim a.title).length = 0) :
    createTask db a = Except.error "Task title cannot be empty" := by
  unfold createTask
  rw [if_pos h]

theorem createTask_ok (db : DB) (a : CreateArgs) (h : (jsTrim a.title).length ≠ 0) :
    createTask db a
      = Except.ok ({ rows := db.rows ++ [(db.nextId, newTask a)], nextId := db.nextId + 1 },
          db.nextId,
          dbGet { rows := db.rows ++ [(db.nextId, newTask a)], nextId := db.nextId + 1 }
            db.nextId) := by
  unfold createTask
  rw [if_neg h]

theorem updateTask_notFound (db : DB) (id : Nat) (u : UpdateArgs) (now : Nat)
    (h : dbGet db id = none) :
    updateTask db id u now = Except.error "Task not found" := by
  unfold updateTask
  rw [h]

theorem updateTask_found (db : DB) (id : Nat) (u : UpdateArgs) (now : Nat) (t : Task)
    (h : dbGet db id = some t) :
    updateTask db id u now
      = Except.ok (dbPatch db id (fun t0 => applyUpdate t0 u now),
          dbGet (dbPatch db id (fun t0 => applyUpdate t0 u now)) id) := by
  unfold updateTask
  rw [h]

theorem deleteTask_notFound (db : DB) (id : Nat) (h : dbGet db id = none) :
    deleteTask db id = Except.error "Task not found" := by
  unfold deleteTask
  rw [h]

theorem deleteTask_found (db : DB) (id : Nat) (t : Task) (h : dbGet db id = some t) :
    deleteTask db id
      = Except.ok (dbPatch db id (fun t0 => { t0 with status := Status.archived }), true) := by
  unfold deleteTask
  rw [h]

theorem toggleTaskComplete_notFound (db : DB) (id : Nat) (now : Nat)
    (h : dbGet db id = none) :
    toggleTaskComplete db id now = Except.error "Task not found" := by
  unfold toggleTaskComplete
  rw [h]

theorem toggleTaskComplete_found (db : DB) (id : Nat) (now : Nat) (t : Task)
    (h : dbGet db id = some t) :
    toggleTaskComplete db id now
      = Except.ok
          (dbPatch db id
            (fun u => { u with status := toggleStatus t, completedAt := toggleCompletedAt t now }),
          dbGet
            (dbPatch db id
              (fun u =>
                { u with status := toggleStatus t, completedAt := toggleCompletedAt t now }))
            id) := by
  unfold toggleTaskComplete
  rw [h]

/-- The list is sorted ascending by the comparator key of getUpcomingTasks. -/
def sortedByDue (l : List Task) : Prop :=
  List.Pairwise (fun a b => dueKey a ≤ dueKey b) l

theorem mem_insertByDue (t x : Task) (l : List Task) :
    x ∈ insertByDue t l ↔ x = t ∨ x ∈ l := by
  induction l with
  | nil => simp [insertByDue]
  | cons a l ih =>
    by_cases h : dueKey t ≤ dueKey a
    · simp [insertByDue, h]
    · simp [insertByDue, h, ih]
      tauto

theorem mem_sortByDue (x : Task) (l : List Task) :
    x ∈ sortByDue l ↔ x ∈ l := by
  induction l with
  | nil => simp [sortByDue]
  | cons a l ih =>
    simp [sortByDue, mem_insertByDue, ih]

theorem sorted_insertByDue (t : Task) (l : List Task) (h : sortedByDue l) :
    sortedByDue (insertByDue t l) := by
  induction l with
  | nil => simp [insertByDue, sortedByDue]
  | cons a l ih =>
    rcases List.pairwise_cons.mp h with ⟨ha, hl⟩
    unfold sortedByDue insertByDue
    by_cases hle : dueKey t ≤ dueKey a
    · rw [if_pos hle]
      refine List.pairwise_cons.mpr ⟨?_, h⟩
      intro b hb
      rcases List.mem_cons.mp hb with hb | hb
      · rw [hb]; exact hle
      · exact Nat.le_trans hle (ha b hb)
    · rw [if_neg hle]
      refine List.pairwise_cons.mpr ⟨?_, ih hl⟩
      intro b hb
      rcases (mem_insertByDue t b l).mp hb with hb | hb
      · rw [hb]; exact Nat.le_of_not_le hle
      · exact ha b hb

theorem sorted_sortByDue (l : List Task) : sortedByDue (sortByDue l) := by
  induction l with
  | nil => simp [sortByDue, sortedByDue]
  | cons a l ih => exact sorted_insertByDue a (sortByDue l) ih

/-- Claim C5: hardDeleteTask reports success without requiring the record to
exist; after a successful call the record is gone, and a second call on the
same id again reports success rather than an error. -/
theorem claim_C5 (db : DB) (id : Nat) :
    (hardDeleteTask db id).2 = true ∧
    dbGet (hardDeleteTask db id).1 id = none ∧
    (hardDeleteTask (hardDeleteTask db id).1 id).2 = true :=
  ⟨rfl, dbGet_dbDelete_self db id, rfl⟩

/-- Claim C6: createTask fails with a validation error exactly when the
trimmed title is empty (including whitespace-only titles); otherwise it
inserts a new task whose status defaults to todo and priority to medium when
omitted, with completedAt unset, and returns the stored record. -/
theorem claim_C6 (db : DB) (a : CreateArgs) (hwf : DBwf db) :
    ((jsTrim a.title).length = 0 →
        createTask db a = Except.error "Task title cannot be empty") ∧
    ((jsTrim a.title).length ≠ 0 →
      ∃ db2 : DB, createTask db a = Except.ok (db2, db.nextId, some (newTask a)) ∧
        dbGet db2 db.nextId = some (newTask a) ∧
        (newTask a).status = a.status.getD Status.todo ∧
        (newTask a).priority = a.priority.getD Priority.medium ∧
        (newTask a).completedAt = none) := by
  refine ⟨createTask_err db a, fun h => ?_⟩
  refine ⟨{ rows := db.rows ++ [(db.nextId, newTask a)], nextId := db.nextId + 1 },
    ?_, dbGet_insert_fresh db (newTask a) hwf, rfl, rfl, rfl⟩
  rw [createTask_ok db a h, dbGet_insert_fresh db (newTask a) hwf]

/-- Claim C6 witness at a concrete whitespace-only title. -/
theorem claim_C6_witness :
    createTask dbEmpty { title := "   " } = Except.error "Task title cannot be empty" :=
  (claim_C6 dbEmpty { title := "   " } DBwf_dbEmpty).1 (by decide)

/-- Claim C8: deleteTask (archive) fails with not-found when the id is
absent; otherwise it sets the task's status to archived and changes no
other field of the record, nor any other record. -/
theorem claim_C8 (db : DB) (id : Nat) :
    (dbGet db id = none → deleteTask db id = Except.error "Task not found") ∧
    (∀ t, dbGet db id = some t →
      ∃ db2 : DB, deleteTask db id = Except.ok (db2, true) ∧
        ∃ t2, dbGet db2 id = some t2 ∧
          t2.status = Status.archived ∧
          t2.title = t.title ∧ t2.description = t.description ∧
          t2.priority = t.priority ∧ t2.dueDate = t.dueDate ∧
          t2.tags = t.tags ∧ t2.userId = t.userId ∧
          t2.completedAt = t.completedAt ∧
          (∀ j, j ≠ id → dbGet db2 j = dbGet db j)) := by
  refine ⟨deleteTask_notFound db id, fun t ht => ?_⟩
  refine ⟨dbPatch db id (fun t0 => { t0 with status := Status.archived }),
    deleteTask_found db id t ht,
    { t with status := Status.archived }, ?_, rfl, rfl, rfl, rfl, rfl, rfl, rfl, rfl, ?_⟩
  · rw [dbGet_dbPatch_self, ht]
    rfl
  · intro j hj
    exact dbGet_dbPatch_ne db id j _ hj

/-- Claim C8 witness: archiving the sample task. -/
theorem claim_C8_witness :
    ∃ db2 : DB, deleteTask sampleDB 0 = Except.ok (db2, true) ∧
      ∃ t2, dbGet db2 0 = some t2 ∧
        t2.status = Status.archived ∧
        t2.title = sampleTask.title ∧ t2.description = sampleTask.description ∧
        t2.priority = sampleTask.priority ∧ t2.dueDate = sampleTask.dueDate ∧
        t2.tags = sampleTask.tags ∧ t2.userId = sampleTask.userId ∧
        t2.completedAt = sampleTask.completedAt ∧
        (∀ j, j ≠ 0 → dbGet db2 j = dbGet sampleDB j) :=
  (claim_C8 sampleDB 0).2 sampleTask (by decide)

/-- Claim C10: updateTask accepts no userId argument; it never changes the
ownerId of the updated record, nor of any other record in the store. -/
theorem claim_C10 (db : DB) (id : Nat) (u : UpdateArgs) (now : Nat) (t : Task)
    (h : dbGet db id = some t) :
    ∃ db2 : DB, updateTask db id u now = Except.ok (db2, some (applyUpdate t u now)) ∧
      (applyUpdate t u now).userId = t.userId ∧
      (∀ j, (dbGet db2 j).map Task.userId = (dbGet db j).map Task.userId) := by
  have hself : dbGet (dbPatch db id (fun t0 => applyUpdate t0 u now)) id
      = some (applyUpdate t u now) := by
    rw [dbGet_dbPatch_self, h]
    rfl
  refine ⟨dbPatch db id (fun t0 => applyUpdate t0 u now), ?_, rfl, ?_⟩
  · rw [updateTask_found db id u now t h, hself]
  · intro j
    by_cases hj : j = id
    · rw [hj, hself, h]
      rfl
    · rw [dbGet_dbPatch_ne db id j _ hj]

/-- Claim C10 witness: updating every updatable field of the sample task
leaves its userId untouched. -/
theorem claim_C10_witness :
    ∃ db2 : DB,
      updateTask sampleDB 0
          { title := some "b", description := some "d", status := some Status.in_progress,
            priority := some Priority.high, dueDate := some 9, tags := some ["x"] } 7
        = Except.ok (db2, some (applyUpdate sampleTask
            { title := some "b", description := some "d", status := some Status.in_progress,
              priority := some Priority.high, dueDate := some 9, tags := some ["x"] } 7)) ∧
      (applyUpdate sampleTask
          { title := some "b", description := some "d", status := some Status.in_progress,
            priority := some Priority.high, dueDate := some 9, tags := some ["x"] } 7).userId
        = sampleTask.userId ∧
      (∀ j, (dbGet db2 j).map Task.userId = (dbGet sampleDB j).map Task.userId) :=
  claim_C10 sampleDB 0
    { title := some "b", description := some "d", status := some Status.in_progress,
      priority := some Priority.high, dueDate := some 9, tags := some ["x"] } 7
    sampleTask (by decide)

/-- Claim C2: updateTask fails with not-found on a missing id; otherwise it
applies exactly the fields present in the arguments, sets completedAt to now
on a transition into completed, clears completedAt whenever status is set to
a non-completed value regardless of the previous value, and leaves every
other record untouched. -/
theorem claim_C2 (db : DB) (id : Nat) (u : UpdateArgs) (now : Nat) :
    (dbGet db id = none → updateTask db id u now = Except.error "Task not found") ∧
    (∀ t, dbGet db id = some t →
      ∃ db2 : DB, ∃ t2 : Task, updateTask db id u now = Except.ok (db2, some t2) ∧
        dbGet db2 id = some t2 ∧
        (∀ s, u.title = some s → t2.title = s) ∧ (u.title = none → t2.title = t.title) ∧
        (∀ s, u.description = some s → t2.description = some s) ∧
        (u.description = none → t2.description = t.description) ∧
        (∀ s, u.status = some s → t2.status = s) ∧ (u.status = none → t2.status = t.status) ∧
        (∀ s, u.priority = some s → t2.priority = s) ∧
        (u.priority = none → t2.priority = t.priority) ∧
        (∀ s, u.dueDate = some s → t2.dueDate = some s) ∧
        (u.dueDate = none → t2.dueDate = t.dueDate) ∧
        (∀ s, u.tags = some s → t2.tags = some s) ∧ (u.tags = none → t2.tags = t.tags) ∧
        (u.status = some Status.completed → t.status ≠ Status.completed →
          t2.completedAt = some now) ∧
        (∀ s, u.status = some s → s ≠ Status.completed → t2.completedAt = none) ∧
        (u.status = none → t2.completedAt = t.completedAt) ∧
        (u.status = some Status.completed → t.status = Status.completed →
          t2.completedAt = t.completedAt) ∧
        (∀ j, j ≠ id → dbGet db2 j = dbGet db j)) := by
  refine ⟨updateTask_notFound db id u now, fun t ht => ?_⟩
  have hself : dbGet (dbPatch db id (fun t0 => applyUpdate t0 u now)) id
      = some (applyUpdate t u now) := by
    rw [dbGet_dbPatch_self, ht]
    rfl
  refine ⟨dbPatch db id (fun t0 => applyUpdate t0 u now), applyUpdate t u now,
    ?_, hself, ?_, ?_, ?_, ?_, ?_, ?_, ?_, ?_, ?_, ?_, ?_, ?_, ?_, ?_, ?_, ?_, ?_⟩
  · rw [updateTask_found db id u now t ht, hself]
  · intro s hs
    simp [applyUpdate, patchField, hs]
  · intro hs
    simp [applyUpdate, patchField, hs]
  · intro s hs
    simp [applyUpdate, patchFieldOpt, hs]
  · intro hs
    simp [applyUpdate, patchFieldOpt, hs]
  · intro s hs
    simp [applyUpdate, patchField, hs]
  · intro hs
    simp [applyUpdate, patchField, hs]
  · intro s hs
    simp [applyUpdate, patchField, hs]
  · intro hs
    simp [applyUpdate, patchField, hs]
  · intro s hs
    simp [applyUpdate, patchFieldOpt, hs]
  · intro hs
    simp [applyUpdate, patchFieldOpt, hs]
  · intro s hs
    simp [applyUpdate, patchFieldOpt, hs]
  · intro hs
    simp [applyUpdate, patchFieldOpt, hs]
  · intro hs hts
    simp [applyUpdate, updCompletedAt, hs, hts]
  · intro s hs hne
    have hts : ¬ (u.status = some Status.completed ∧ t.status ≠ Status.completed) := by
      intro hcon
      rw [hs] at hcon
      exact hne (by injection hcon.1)
    simp [applyUpdate, updCompletedAt, hts, hs, hne]
  · intro hs
    simp [applyUpdate, updCompletedAt, hs]
  · intro hs hts
    simp [applyUpdate, updCompletedAt, hs, hts]
  · intro j hj
    exact dbGet_dbPatch_ne db id j _ hj

/-- Claim C2 witness: completing the sample todo task stamps completedAt. -/
theorem claim_C2_witness :
    ∃ db2 : DB, ∃ t2 : Task,
      updateTask sampleDB 0 { status := some Status.completed } 11
        = Except.ok (db2, some t2) ∧
      dbGet db2 0 = some t2 ∧ t2.status = Status.completed ∧ t2.completedAt = some 11 := by
  obtain ⟨db2, t2, h1, h2, _, _, _, _, hset, _, _, _, _, _, _, _, hca, _⟩ :=
    (claim_C2 sampleDB 0 { status := some Status.completed } 11).2 sampleTask (by decide)
  exact ⟨db2, t2, h1, h2, hset Status.completed rfl, hca rfl (by decide)⟩

/-- Claim C7: toggleTaskComplete fails with not-found on a missing id;
otherwise completed flips to todo with completedAt cleared and any other
status flips to completed with completedAt set to now, and from a todo task
two successive calls return the task to todo with completedAt absent. -/
theorem claim_C7 (db : DB) (id : Nat) (now now2 : Nat) :
    (dbGet db id = none → toggleTaskComplete db id now = Except.error "Task not found") ∧
    (∀ t, dbGet db id = some t →
      ∃ db2 : DB, ∃ t2 : Task, toggleTaskComplete db id now = Except.ok (db2, some t2) ∧
        dbGet db2 id = some t2 ∧
        (t.status = Status.completed → t2.status = Status.todo ∧ t2.completedAt = none) ∧
        (t.status ≠ Status.completed →
          t2.status = Status.completed ∧ t2.completedAt = some now) ∧
        (t.status = Status.todo →
          ∃ db3 : DB, ∃ t3 : Task,
            toggleTaskComplete db2 id now2 = Except.ok (db3, some t3) ∧
            dbGet db3 id = some t3 ∧ t3.status = Status.todo ∧ t3.completedAt = none)) := by
  refine ⟨toggleTaskComplete_notFound db id now, fun t ht => ?_⟩
  have hself : dbGet
      (dbPatch db id
        (fun u => { u with status := toggleStatus t, completedAt := toggleCompletedAt t now }))
      id = some { t with status := toggleStatus t, completedAt := toggleCompletedAt t now } := by
    rw [dbGet_dbPatch_self, ht]
    rfl
  refine ⟨_, { t with status := toggleStatus t, completedAt := toggleCompletedAt t now },
    ?_, hself, ?_, ?_, ?_⟩
  · rw [toggleTaskComplete_found db id now t ht, hself]
  · intro hc
    constructor
    · simp [toggleStatus, hc]
    · simp [toggleCompletedAt, toggleStatus, hc]
  · intro hc
    constructor
    · simp [toggleStatus, hc]
    · simp [toggleCompletedAt, toggleStatus, hc]
  · intro htodo
    have hc : t.status ≠ Status.completed := by
      rw [htodo]
      intro hh
      cases hh
    have hstat2 : toggleStatus t = Status.completed := by
      simp [toggleStatus, hc]
    set t2 : Task := { t with status := toggleStatus t, completedAt := toggleCompletedAt t now }
      with ht2
    set db2 : DB := dbPatch db id
        (fun u => { u with status := toggleStatus t, completedAt := toggleCompletedAt t now })
      with hdb2
    have hself3 : dbGet
        (dbPatch db2 id
          (fun u =>
            { u with status := toggleStatus t2, completedAt := toggleCompletedAt t2 now2 }))
        id = some { t2 with status := toggleStatus t2, completedAt := toggleCompletedAt t2 now2 } := by
      rw [dbGet_dbPatch_self, hself]
      rfl
    refine ⟨dbPatch db2 id
        (fun u => { u with status := toggleStatus t2, completedAt := toggleCompletedAt t2 now2 }),
      { t2 with status := toggleStatus t2, completedAt := toggleCompletedAt t2 now2 },
      ?_, hself3, ?_, ?_⟩
    · rw [toggleTaskComplete_found db2 id now2 t2 hself, hself3]
    · simp [toggleStatus, ht2, hstat2]
      exact hc
    · simp [toggleCompletedAt, toggleStatus, ht2, hstat2]
      exact hc

/-- Claim C7 witness: toggling the sample todo task twice. -/
theorem claim_C7_witness :
    ∃ db2 : DB, ∃ t2 : Task,
      toggleTaskComplete sampleDB 0 4 = Except.ok (db2, some t2) ∧
      t2.status = Status.completed ∧ t2.completedAt = some 4 ∧
      ∃ db3 : DB, ∃ t3 : Task,
        toggleTaskComplete db2 0 9 = Except.ok (db3, some t3) ∧
        t3.status = Status.todo ∧ t3.completedAt = none := by
  obtain ⟨db2, t2, h1, _, _, hflip, hagain⟩ :=
    (claim_C7 sampleDB 0 4 9).2 sampleTask (by decide)
  obtain ⟨hs2, hca2⟩ := hflip (by decide)
  obtain ⟨db3, t3, h3, _, hs3, hca3⟩ := hagain rfl
  exact ⟨db2, t2, h1, hs2, hca2, db3, t3, h3, hs3, hca3⟩

/-- Claim C9: every task getUpcomingTasks returns has status neither
completed nor archived and a present due date at least now, the result is
sorted ascending by due date, and among the scanned candidates a task whose
due date equals now exactly is included (Date.now() is positive, hence the
hypothesis 0 < now). -/
theorem claim_C9 (now : Nat) (scanned : List Task) :
    (∀ t ∈ getUpcomingTasks now scanned,
      t.status ≠ Status.completed ∧ t.status ≠ Status.archived ∧
        ∃ d, t.dueDate = some d ∧ now ≤ d) ∧
    sortedByDue (getUpcomingTasks now scanned) ∧
    (∀ t ∈ upcomingCandidates scanned, t.dueDate = some now → 0 < now →
      t ∈ getUpcomingTasks now scanned) := by
  refine ⟨?_, sorted_sortByDue _, ?_⟩
  · intro t hmem
    have hf : t ∈ (upcomingCandidates scanned).filter (fun t0 => dueOk now t0) :=
      (mem_sortByDue t _).mp hmem
    rcases List.mem_filter.mp hf with ⟨hcand, hdue⟩
    have hcand2 : t ∈ (scanned.filter
        (fun t0 => decide (t0.status ≠ Status.archived))).filter
        (fun t0 => decide (t0.status ≠ Status.completed)) :=
      List.take_subset 50 _ hcand
    rcases List.mem_filter.mp hcand2 with ⟨hcand3, hnc⟩
    rcases List.mem_filter.mp hcand3 with ⟨_, hna⟩
    refine ⟨by simpa using hnc, by simpa using hna, ?_⟩
    unfold dueOk at hdue
    rcases hd : t.dueDate with _ | d
    · rw [hd] at hdue
      cases hdue
    · rw [hd] at hdue
      exact ⟨d, rfl, by simpa using (Bool.and_eq_true_iff.mp hdue).2⟩
  · intro t hcand hdue hpos
    refine (mem_sortByDue t _).mpr (List.mem_filter.mpr ⟨hcand, ?_⟩)
    unfold dueOk
    rw [hdue]
    have : now ≠ 0 := Nat.pos_iff_ne_zero.mp hpos
    simp [this]

/-- A concrete candidate task for the C9 witness. -/
def upTask : Task :=
  { title := "u", description := none, status := Status.todo,
    priority := Priority.medium, dueDate := some 5, userId := none, tags := none,
    completedAt := none }

/-- Claim C9 witness: a todo task due exactly at now = 5 is returned. -/
theorem claim_C9_witness : upTask ∈ getUpcomingTasks 5 [upTask] :=
  (claim_C9 5 [upTask]).2.2 upTask (by decide) rfl (by decide)

theorem dbInv_dbPatch (db : DB) (id : Nat) (f : Task → Task) (h : dbInv db)
    (hf : ∀ r ∈ db.rows, r.1 = id → taskInv (f r.2)) :
    dbInv (dbPatch db id f) := by
  intro r hr
  rcases List.mem_map.mp hr with ⟨r0, hr0, heq⟩
  by_cases hid : r0.1 = id
  · rw [← heq, if_pos hid]
    exact hf r0 hr0 hid
  · rw [← heq, if_neg hid]
    exact h r0 hr0

theorem taskInv_applyUpdate (t : Task) (u : UpdateArgs) (now : Nat) (h : taskInv t) :
    taskInv (applyUpdate t u now) := by
  unfold taskInv at h
  unfold taskInv applyUpdate updCompletedAt patchField
  rcases hu : u.status with _ | s
  · simpa [hu] using h
  · by_cases hts : t.status = Status.completed
    · by_cases hsc : s = Status.completed
      · simpa [hu, hts, hsc] using h
      · simp [hu, hts, hsc]
    · by_cases hsc : s = Status.completed
      · simp [hu, hts, hsc]
      · simp [hu, hts, hsc]

theorem taskInv_toggled (t t0 : Task) (now : Nat) :
    taskInv { t0 with status := toggleStatus t, completedAt := toggleCompletedAt t now } := by
  unfold taskInv toggleStatus toggleCompletedAt
  by_cases h : t.status = Status.completed <;> simp [toggleStatus, h]

/-- Claim C1 fails on the code: the completedAt-iff-completed invariant is
broken both by archiving a completed task (completedAt stays set while the
status becomes archived) and by creating a task with an explicit completed
status (completedAt stays absent).  Both stores below are reached from the
empty store by the listed operations. -/
theorem claim_C1_counterexample :
    ¬ dbInv (runOps dbEmpty [Op.create { title := "a" }, Op.toggle 0 3, Op.archive 0]) ∧
    ¬ dbInv (runOps dbEmpty [Op.create { title := "b", status := some Status.completed }]) := by
  decide

/-- Claim C1 amended: the completedAt-iff-completed invariant is preserved by
update, toggle and hard delete unconditionally, by create unless an explicit
completed status is requested, and by archive unless the archived task was
completed; the two excluded cases are exactly the counterexample's. -/
theorem claim_C1_amended (db : DB) (op : Op) (h : dbInv db) (hs : opSafe db op) :
    dbInv (applyOp db op) := by
  cases op with
  | create a =>
    have hs2 : a.status ≠ some Status.completed := hs
    by_cases hc : (jsTrim a.title).length = 0
    · simpa [applyOp, createTask_err db a hc] using h
    · simp only [applyOp, createTask_ok db a hc]
      intro r hr
      rcases List.mem_append.mp hr with hr | hr
      · exact h r hr
      · have hr2 : r = (db.nextId, newTask a) := List.mem_singleton.mp hr
        rw [hr2]
        unfold taskInv newTask
        rcases ha : a.status with _ | s
        · simp
        · have : s ≠ Status.completed := by
            intro hh
            rw [hh] at ha
            exact hs2 ha
          simp [this]
  | update id u now =>
    rcases hg : dbGet db id with _ | t
    · simpa [applyOp, updateTask_notFound db id u now hg] using h
    · simp only [applyOp, updateTask_found db id u now t hg]
      exact dbInv_dbPatch db id _ h (fun r hr _ => taskInv_applyUpdate r.2 u now (h r hr))
  | archive id =>
    rcases hg : dbGet db id with _ | t
    · simpa [applyOp, deleteTask_notFound db id hg] using h
    · simp only [applyOp, deleteTask_found db id t hg]
      refine dbInv_dbPatch db id _ h (fun r hr hid => ?_)
      have hnc : r.2.status ≠ Status.completed := hs r hr hid
      have hinv : taskInv r.2 := h r hr
      unfold taskInv at hinv
      unfold taskInv
      constructor
      · intro hsome
        exact absurd (hinv.mp hsome) hnc
      · intro hh
        cases hh
  | toggle id now =>
    rcases hg : dbGet db id with _ | t
    · simpa [applyOp, toggleTaskComplete_notFound db id now hg] using h
    · simp only [applyOp, toggleTaskComplete_found db id now t hg]
      exact dbInv_dbPatch db id _ h (fun r hr _ => taskInv_toggled t r.2 now)
  | hardDelete id =>
    intro r hr
    exact h r (List.mem_filter.mp hr).1

/-- Claim C1 amended witness: toggling the sample todo task preserves the
invariant. -/
theorem claim_C1_amended_witness : dbInv (applyOp sampleDB (Op.toggle 0 5)) :=
  claim_C1_amended sampleDB (Op.toggle 0 5) (by decide) trivial

/-- Claim C3 fails on the code: createTask validates against the trimmed
title but stores the title exactly as passed, so reading the created task
back yields " a ", not " a ".trim() = "a". -/
theorem claim_C3_counterexample :
    (createTask dbEmpty { title := " a " }).map (fun r => r.2.2.map Task.title)
      = Except.ok (some " a ") ∧
    jsTrim " a " = "a" ∧ (" a " : String) ≠ "a" := by
  refine ⟨by decide, by decide, by decide⟩

/-- Claim C3 amended: for every accepted title, reading the created task
back by its identifier yields the title exactly as passed, untrimmed. -/
theorem claim_C3_amended (db : DB) (a : CreateArgs) (hwf : DBwf db)
    (h : (jsTrim a.title).length ≠ 0) :
    ∃ db2 : DB, ∃ id : Nat,
      createTask db a = Except.ok (db2, id, some (newTask a)) ∧
      dbGet db2 id = some (newTask a) ∧ (newTask a).title = a.title := by
  refine ⟨{ rows := db.rows ++ [(db.nextId, newTask a)], nextId := db.nextId + 1 },
    db.nextId, ?_, dbGet_insert_fresh db (newTask a) hwf, rfl⟩
  rw [createTask_ok db a h, dbGet_insert_fresh db (newTask a) hwf]

/-- Claim C3 amended witness: creating a task titled " a " stores " a ". -/
theorem claim_C3_amended_witness :
    ∃ db2 : DB, ∃ id : Nat,
      createTask dbEmpty { title := " a " }
        = Except.ok (db2, id, some (newTask { title := " a " })) ∧
      dbGet db2 id = some (newTask { title := " a " }) ∧
      (newTask { title := " a " }).title = " a " :=
  claim_C3_amended dbEmpty { title := " a " } DBwf_dbEmpty (by decide)

/-- Claim C4 fails on the code: updateTask performs no title validation, so
updating the created task with a whitespace-only title stores a title that
is empty after trimming. -/
theorem claim_C4_counterexample :
    (dbGet (runOps dbEmpty
        [Op.create { title := "a" }, Op.update 0 { title := some "   " } 5]) 0).map
      (fun t => jsTrim t.title) = some "" := by
  decide

/-- Claim C4 amended: createTask guarantees the stored trimmed title is
nonempty, but updateTask applies a provided title verbatim with no
validation, so the trimmed-nonempty title invariant survives creation only,
not updates. -/
theorem claim_C4_amended (db : DB) (a : CreateArgs) (id : Nat) (u : UpdateArgs)
    (now : Nat) (hwf : DBwf db) :
    (∀ db2 i t, createTask db a = Except.ok (db2, i, some t) →
      (jsTrim t.title).length ≠ 0) ∧
    (∀ t s, dbGet db id = some t → u.title = some s →
      ∃ db2 : DB, ∃ t2 : Task,
        updateTask db id u now = Except.ok (db2, some t2) ∧
        dbGet db2 id = some t2 ∧ t2.title = s) := by
  constructor
  · intro db2 i t hok
    by_cases hc : (jsTrim a.title).length = 0
    · rw [createTask_err db a hc] at hok
      cases hok
    · rw [createTask_ok db a hc, dbGet_insert_fresh db (newTask a) hwf] at hok
      have ht : t = newTask a := by
        injection hok with hok2
        injection congrArg Prod.snd hok2 with _ hok3
        injection hok3 with hok4
        exact hok4.symm
      rw [ht]
      exact hc
  · intro t s ht hs
    have hself : dbGet (dbPatch db id (fun t0 => applyUpdate t0 u now)) id
        = some (applyUpdate t u now) := by
      rw [dbGet_dbPatch_self, ht]
      rfl
    refine ⟨dbPatch db id (fun t0 => applyUpdate t0 u now), applyUpdate t u now,
      ?_, hself, ?_⟩
    · rw [updateTask_found db id u now t ht, hself]
    · simp [applyUpdate, patchField, hs]

/-- Claim C4 amended witness: updating the sample task with a whitespace-only
title stores that title verbatim. -/
theorem claim_C4_amended_witness :
    ∃ db2 : DB, ∃ t2 : Task,
      updateTask sampleDB 0 { title := some "   " } 5 = Except.ok (db2, some t2) ∧
      dbGet db2 0 = some t2 ∧ t2.title = "   " :=
  (claim_C4_amended sampleDB { title := "a" } 0 { title := some "   " } 5
    DBwf_sampleDB).2 sampleTask "   " (by decide) rfl

end TaskStore
